import Mathlib

/-!
Verification of the byte-level MessagePack decoder, the MessagePack-to-JSON
transcoder, and the size-expression generator of this repository.

Buffers are embedded as `List Nat` (one entry per byte, values below 256 on
well-formed input).  Go's multiple return values `(v, o, err)` are embedded as
tuples whose last component is `Option Err` (`none` meaning the Go `nil`
error), so that the non-error return slots keep their Go zero values (`[]` for
a `nil` slice, `0` for an integer) on the error paths, exactly as in the
source.
-/

namespace Msgp

/-- Embeds the Go `Type` enumeration of MessagePack logical types. -/
inductive MsgpType where
  | InvalidType
  | StrType
  | BinType
  | MapType
  | ArrayType
  | Float64Type
  | Float32Type
  | BoolType
  | IntType
  | UintType
  | NilType
  | ExtensionType
  | Complex64Type
  | Complex128Type
  | TimeType
deriving DecidableEq

/-- Embeds the error values surfaced by the decoder (`ErrShortBytes`,
`TypeError`, `InvalidPrefixError`, `IntOverflow`, `UintOverflow`,
`ArrayError`, `ExtensionTypeError`, and the internal `fatal`). -/
inductive Err where
  | shortBytes
  | typeError (method encoded : MsgpType)
  | invalidPrefixError (lead : Nat)
  | intOverflow (value : Int) (failedBitsize : Nat)
  | uintOverflow (value : Nat) (failedBitsize : Nat)
  | arrayError (wanted got : Nat)
  | extensionTypeError (got wanted : Int)
  | fatal
deriving DecidableEq

/-! Modelled from the spec: the fixed prefix bytes of the MessagePack wire
grammar (the constants file of the codec is not part of the given sources;
the values are listed in the spec, section 4.1). -/

def mnil : Nat := 0xc0
def mfalse : Nat := 0xc2
def mtrue : Nat := 0xc3
def mbin8 : Nat := 0xc4
def mbin16 : Nat := 0xc5
def mbin32 : Nat := 0xc6
def mext8 : Nat := 0xc7
def mext16 : Nat := 0xc8
def mext32 : Nat := 0xc9
def mfloat32 : Nat := 0xca
def mfloat64 : Nat := 0xcb
def muint8 : Nat := 0xcc
def muint16 : Nat := 0xcd
def muint32 : Nat := 0xce
def muint64 : Nat := 0xcf
def mint8 : Nat := 0xd0
def mint16 : Nat := 0xd1
def mint32 : Nat := 0xd2
def mint64 : Nat := 0xd3
def mfixext1 : Nat := 0xd4
def mfixext2 : Nat := 0xd5
def mfixext4 : Nat := 0xd6
def mfixext8 : Nat := 0xd7
def mfixext16 : Nat := 0xd8
def mstr8 : Nat := 0xd9
def mstr16 : Nat := 0xda
def mstr32 : Nat := 0xdb
def marray16 : Nat := 0xdc
def marray32 : Nat := 0xdd
def mmap16 : Nat := 0xde
def mmap32 : Nat := 0xdf

/-! Modelled from the spec: the fix-range classifiers and their low-bit value
extractors (positive fixint `0x00..0x7f`, negative fixint `0xe0..0xff`,
fixstr `0xa0..0xbf`, fixmap `0x80..0x8f`, fixarray `0x90..0x9f`). -/

def isfixint (b : Nat) : Bool := b < 0x80

def rfixint (b : Nat) : Nat := b

def isnfixint (b : Nat) : Bool := 0xe0 ≤ b ∧ b ≤ 0xff

/-- Value of a negative fixint byte, read as a signed 8-bit integer. -/
def rnfixint (b : Nat) : Int := (b : Int) - 0x100

def isfixstr (b : Nat) : Bool := 0xa0 ≤ b ∧ b ≤ 0xbf

def rfixstr (b : Nat) : Nat := b - 0xa0

def isfixmap (b : Nat) : Bool := 0x80 ≤ b ∧ b ≤ 0x8f

def rfixmap (b : Nat) : Nat := b - 0x80

def isfixarray (b : Nat) : Bool := 0x90 ≤ b ∧ b ≤ 0x9f

def rfixarray (b : Nat) : Nat := b - 0x90

/-! Modelled from the spec: fixed-width big-endian numeric decoders at offset
one in the buffer (the primitive-getter file of the codec is not part of the
given sources; the spec, section 4.1, specifies 8/16/32/64-bit signed and
unsigned big-endian decoders). -/

def getMuint8 (b : List Nat) : Nat := b.getD 1 0

def getMuint16 (b : List Nat) : Nat := (b.getD 1 0) * 0x100 + b.getD 2 0

def getMuint32 (b : List Nat) : Nat :=
  (b.getD 1 0) * 0x1000000 + (b.getD 2 0) * 0x10000 + (b.getD 3 0) * 0x100 + b.getD 4 0

def getMuint64 (b : List Nat) : Nat :=
  (getMuint32 b) * 0x100000000 +
    (b.getD 5 0) * 0x1000000 + (b.getD 6 0) * 0x10000 + (b.getD 7 0) * 0x100 + b.getD 8 0

/-- Reinterpret the low `w` bits of `n` as a two's-complement signed value. -/
def toSigned (w : Nat) (n : Nat) : Int :=
  if n % 2 ^ w < 2 ^ (w - 1) then (n % 2 ^ w : Int) else (n % 2 ^ w : Int) - 2 ^ w

def getMint8 (b : List Nat) : Int := toSigned 8 (getMuint8 b)

def getMint16 (b : List Nat) : Int := toSigned 16 (getMuint16 b)

def getMint32 (b : List Nat) : Int := toSigned 32 (getMuint32 b)

def getMint64 (b : List Nat) : Int := toSigned 64 (getMuint64 b)

/-- Length-mode sentinels of the prefix table (`varmode` in the codec):
nonnegative values mean a fixed prefix with that many further objects to
skip; the negative sentinels select a trailing 1/2/4-byte length field or a
map/array count field. -/
def constsize : Int := 0
def extra8 : Int := -1
def extra16 : Int := -2
def extra32 : Int := -3
def map16v : Int := -4
def map32v : Int := -5
def array16v : Int := -6
def array32v : Int := -7

/-- One entry of the 256-entry prefix table. -/
structure bytespec where
  size : Nat
  extra : Int
  typ : MsgpType
deriving DecidableEq

/-- Modelled from the spec: the 256-entry prefix table `sizes`, indexed by
leading byte, yielding the logical type, the total prefix size and the
length mode (spec, section 3 and section 4.1).  Unmapped bytes (only `0xc1`)
carry size `0` and `InvalidType`. -/
def sizes (lead : Nat) : bytespec :=
  if lead ≤ 0x7f then ⟨1, constsize, .IntType⟩
  else if lead ≤ 0x8f then ⟨1, 2 * ((lead : Int) - 0x80), .MapType⟩
  else if lead ≤ 0x9f then ⟨1, (lead : Int) - 0x90, .ArrayType⟩
  else if lead ≤ 0xbf then ⟨1 + (lead - 0xa0), constsize, .StrType⟩
  else if lead = mnil then ⟨1, constsize, .NilType⟩
  else if lead = mfalse then ⟨1, constsize, .BoolType⟩
  else if lead = mtrue then ⟨1, constsize, .BoolType⟩
  else if lead = mbin8 then ⟨2, extra8, .BinType⟩
  else if lead = mbin16 then ⟨3, extra16, .BinType⟩
  else if lead = mbin32 then ⟨5, extra32, .BinType⟩
  else if lead = mext8 then ⟨3, extra8, .ExtensionType⟩
  else if lead = mext16 then ⟨4, extra16, .ExtensionType⟩
  else if lead = mext32 then ⟨6, extra32, .ExtensionType⟩
  else if lead = mfloat32 then ⟨5, constsize, .Float32Type⟩
  else if lead = mfloat64 then ⟨9, constsize, .Float64Type⟩
  else if lead = muint8 then ⟨2, constsize, .UintType⟩
  else if lead = muint16 then ⟨3, constsize, .UintType⟩
  else if lead = muint32 then ⟨5, constsize, .UintType⟩
  else if lead = muint64 then ⟨9, constsize, .UintType⟩
  else if lead = mint8 then ⟨2, constsize, .IntType⟩
  else if lead = mint16 then ⟨3, constsize, .IntType⟩
  else if lead = mint32 then ⟨5, constsize, .IntType⟩
  else if lead = mint64 then ⟨9, constsize, .IntType⟩
  else if lead = mfixext1 then ⟨3, constsize, .ExtensionType⟩
  else if lead = mfixext2 then ⟨4, constsize, .ExtensionType⟩
  else if lead = mfixext4 then ⟨6, constsize, .ExtensionType⟩
  else if lead = mfixext8 then ⟨10, constsize, .ExtensionType⟩
  else if lead = mfixext16 then ⟨18, constsize, .ExtensionType⟩
  else if lead = mstr8 then ⟨2, extra8, .StrType⟩
  else if lead = mstr16 then ⟨3, extra16, .StrType⟩
  else if lead = mstr32 then ⟨5, extra32, .StrType⟩
  else if lead = marray16 then ⟨3, array16v, .ArrayType⟩
  else if lead = marray32 then ⟨5, array32v, .ArrayType⟩
  else if lead = mmap16 then ⟨3, map16v, .MapType⟩
  else if lead = mmap32 then ⟨5, map32v, .MapType⟩
  else if 0xe0 ≤ lead ∧ lead ≤ 0xff then ⟨1, constsize, .IntType⟩
  else ⟨0, 0, .InvalidType⟩

/-- Embeds `getType`: the logical type of a leading byte, read off the
prefix table. -/
def getType (v : Nat) : MsgpType := (sizes v).typ

/-- Modelled from the spec: `badPrefix(m, lead)` builds
`TypeError{Method: m, Encoded: getType(lead)}`. -/
def badPrefixE (m : MsgpType) (lead : Nat) : Err := .typeError m (getType lead)

/-- Embeds `ReadStringZC` from `read_bytes.go`: reads a `str` object,
returning `(v, o, err)` where `v` is the payload and `o` the remaining
bytes.  On error the named returns keep their zero values `(nil, nil)`. -/
def ReadStringZC (b : List Nat) : List Nat × List Nat × Option Err :=
  let l := b.length
  if l < 1 then ([], [], some .shortBytes)
  else
    let lead := b.getD 0 0
    if isfixstr lead then
      let read := rfixstr lead
      let b := b.drop 1
      if b.length < read then ([], [], some .shortBytes)
      else (b.take read, b.drop read, none)
    else if lead = mstr8 then
      if l < 2 then ([], [], some .shortBytes)
      else
        let read := b.getD 1 0
        let b := b.drop 2
        if b.length < read then ([], [], some .shortBytes)
        else (b.take read, b.drop read, none)
    else if lead = mstr16 then
      if l < 3 then ([], [], some .shortBytes)
      else
        let read := getMuint16 b
        let b := b.drop 3
        if b.length < read then ([], [], some .shortBytes)
        else (b.take read, b.drop read, none)
    else if lead = mstr32 then
      if l < 5 then ([], [], some .shortBytes)
      else
        let read := getMuint32 b
        let b := b.drop 5
        if b.length < read then ([], [], some .shortBytes)
        else (b.take read, b.drop read, none)
    else ([], [], some (.typeError .StrType (getType lead)))

/-- Embeds `readBytesBytes` from `read_bytes.go` (value level: the zero-copy
flag and the scratch buffer only affect aliasing, not the returned bytes). -/
def readBytesBytes (b : List Nat) : List Nat × List Nat × Option Err :=
  let l := b.length
  if l < 1 then ([], [], some .shortBytes)
  else
    let lead := b.getD 0 0
    if lead = mbin8 then
      if l < 2 then ([], [], some .shortBytes)
      else
        let read := b.getD 1 0
        let b := b.drop 2
        if b.length < read then ([], [], some .shortBytes)
        else (b.take read, b.drop read, none)
    else if lead = mbin16 then
      if l < 3 then ([], [], some .shortBytes)
      else
        let read := getMuint16 b
        let b := b.drop 3
        if b.length < read then ([], [], some .shortBytes)
        else (b.take read, b.drop read, none)
    else if lead = mbin32 then
      if l < 5 then ([], [], some .shortBytes)
      else
        let read := getMuint32 b
        let b := b.drop 5
        if b.length < read then ([], [], some .shortBytes)
        else (b.take read, b.drop read, none)
    else ([], [], some (badPrefixE .BinType lead))

/-- Embeds `ReadBytesZC`: `readBytesBytes(b, nil, true)`. -/
def ReadBytesZC (b : List Nat) : List Nat × List Nat × Option Err :=
  readBytesBytes b

/-- Embeds `ReadMapKeyZC` from `read_bytes.go`.  Note that the source
assigns the second return of `ReadStringZC` back to `b` before the `bin`
fallback runs, exactly as the statement `o, b, err := ReadStringZC(b)`
does in Go. -/
def ReadMapKeyZC (b : List Nat) : List Nat × List Nat × Option Err :=
  let r := ReadStringZC b
  let o := r.1
  let b := r.2.1
  let err := r.2.2
  match err with
  | some e =>
      if isBinTypeErr e then ReadBytesZC b
      else ([], b, some e)
  | none => (o, b, none)
where
  /-- The test `tperr, ok := err.(TypeError); ok && tperr.Encoded == BinType`. -/
  isBinTypeErr : Err → Bool
    | .typeError _ encoded => encoded = .BinType
    | _ => false

/-- Go's `math.MaxInt64`. -/
def maxInt64 : Nat := 0x7fffffffffffffff

/-- Embeds `ReadInt64Bytes` from `read_bytes.go`, including the branch
structure of the `mint32, muint32` case exactly as written in the source
(both branches of its inner conditional call `getMint32`). -/
def ReadInt64Bytes (b : List Nat) : Int × List Nat × Option Err :=
  let l := b.length
  if l < 1 then (0, [], some .shortBytes)
  else
    let lead := b.getD 0 0
    if isfixint lead then ((rfixint lead : Int), b.drop 1, none)
    else if isnfixint lead then (rnfixint lead, b.drop 1, none)
    else if lead = mint8 ∨ lead = muint8 then
      if l < 2 then (0, b, some .shortBytes)
      else if lead = mint8 then (getMint8 b, b.drop 2, none)
      else ((getMuint8 b : Int), b.drop 2, none)
    else if lead = mint16 ∨ lead = muint16 then
      if l < 3 then (0, b, some .shortBytes)
      else if lead = mint16 then (getMint16 b, b.drop 3, none)
      else ((getMuint16 b : Int), b.drop 3, none)
    else if lead = mint32 ∨ lead = muint32 then
      if l < 5 then (0, b, some .shortBytes)
      else if lead = mint32 then (getMint32 b, b.drop 5, none)
      else (getMint32 b, b.drop 5, none)
    else if lead = mint64 ∨ lead = muint64 then
      if l < 9 then (0, b, some .shortBytes)
      else if lead = mint64 then (getMint64 b, b.drop 9, none)
      else
        let num := getMuint64 b
        if num > maxInt64 then (0, b, some (.uintOverflow num 64))
        else ((num : Int), b.drop 9, none)
    else (0, b, some (badPrefixE .IntType lead))

/-- Embeds `ReadInt8Bytes` from `read_bytes.go`. -/
def ReadInt8Bytes (b : List Nat) : Int × List Nat × Option Err :=
  let r := ReadInt64Bytes b
  let i := r.1
  if i > 127 ∨ i < -128 then (0, r.2.1, some (.intOverflow i 8))
  else (i, r.2.1, r.2.2)

/-- C1: `ReadMapKeyZC` on a well-formed `bin` key.  The claim says the call
succeeds with the `bin` payload, like `ReadBytesZC(b)`.  In the source the
statement `o, b, err := ReadStringZC(b)` rebinds `b` to the (nil) remainder
returned by the failed `ReadStringZC`, so the fallback `ReadBytesZC(b)` runs
on the empty buffer and every `bin`-keyed call fails with `ErrShortBytes`:
on the bin8 object `c4 01 61` the direct `ReadBytesZC` yields the payload
`61` with empty tail, while `ReadMapKeyZC` returns `ErrShortBytes`. -/
theorem claim_C1 :
    ReadBytesZC [0xc4, 0x01, 0x61] = ([0x61], [], none) ∧
    ReadMapKeyZC [0xc4, 0x01, 0x61] = ([], [], some Err.shortBytes) := by
  constructor <;> decide

/-- C2: `ReadInt64Bytes` widening of unsigned wire forms.  The claim says a
uint32-encoded value `v` decodes to `v`; the source's `muint32` branch calls
`getMint32` (the signed getter), so the uint32 wire value `2147483648`
(bytes `ce 80 00 00 00`) decodes to `-2147483648`.  The narrower-target
example of the claim does hold: `ReadInt8Bytes` on `cd 01 00` returns
`IntOverflow{256, 8}`. -/
theorem claim_C2 :
    ReadInt64Bytes [0xce, 0x80, 0x00, 0x00, 0x00] = (-2147483648, [], none) ∧
    ReadInt8Bytes [0xcd, 0x01, 0x00] = (0, [], some (Err.intOverflow 256 8)) := by
  constructor <;> decide

/-- Embeds `getSize` from `read_bytes.go`: for the object starting at `b`,
returns (skip N bytes, skip M further objects). -/
def getSize (b : List Nat) : Except Err (Nat × Nat) :=
  let l := b.length
  if l = 0 then .error .shortBytes
  else
    let lead := b.getD 0 0
    let spec := sizes lead
    let size := spec.size
    let mode := spec.extra
    if size = 0 then .error (.invalidPrefixError lead)
    else if 0 ≤ mode then .ok (size, mode.toNat)
    else if l < size then .error .shortBytes
    else if mode = extra8 then .ok (size + b.getD 1 0, 0)
    else if mode = extra16 then .ok (size + getMuint16 b, 0)
    else if mode = extra32 then .ok (size + getMuint32 b, 0)
    else if mode = map16v then .ok (size, 2 * getMuint16 b)
    else if mode = map32v then .ok (size, 2 * getMuint32 b)
    else if mode = array16v then .ok (size, getMuint16 b)
    else if mode = array32v then .ok (size, getMuint32 b)
    else .error .fatal

set_option maxHeartbeats 1000000 in
/-- A successful `getSize` reports at least one prefix byte to skip (the
table maps no byte to a zero size, and `getSize` rejects size zero). -/
theorem getSize_pos {b : List Nat} {sz m : Nat} (h : getSize b = Except.ok (sz, m)) :
    1 ≤ sz := by
  simp only [getSize] at h
  generalize hs : sizes (b.getD 0 0) = sp at h
  repeat' split at h
  all_goals simp at h
  all_goals omega

/-- Embeds the recursion of `Skip` from `read_bytes.go`, with the pending
object count carried explicitly: `skipN b n` skips `n` consecutive objects
from `b`.  One step reads the prefix via `getSize`, drops the prefix bytes
and adds the announced nested-object count, exactly as the source's
slice-then-loop does; `skipN_eq_skipSeq` below shows this agrees with
calling `Skip` once per object, the literal shape of the source. -/
def skipN : List Nat → Nat → Except Err (List Nat)
  | b, 0 => .ok b
  | b, n + 1 =>
    match h : getSize b with
    | .error e => .error e
    | .ok (sz, asz) =>
      if _hl : b.length < sz then .error .shortBytes
      else skipN (b.drop sz) (n + asz)
termination_by b _ => b.length
decreasing_by
  simp only [List.length_drop]
  have h1 := getSize_pos h
  omega

/-- Embeds `Skip` from `read_bytes.go`: skip exactly one object. -/
def Skip (b : List Nat) : Except Err (List Nat) := skipN b 1

/-- Iterated `Skip`: skip `m` successive objects, calling `Skip` once per
object on the remainder, as the loop in the source does. -/
def skipSeq : Nat → List Nat → Except Err (List Nat)
  | 0, b => .ok b
  | m + 1, b =>
    match Skip b with
    | .error e => .error e
    | .ok b2 => skipSeq m b2

theorem skipN_zero (b : List Nat) : skipN b 0 = .ok b := by
  simp [skipN]

theorem skipN_step {b : List Nat} {sz asz : Nat} (n : Nat)
    (h : getSize b = Except.ok (sz, asz)) (hl : ¬ b.length < sz) :
    skipN b (n + 1) = skipN (b.drop sz) (n + asz) := by
  rw [skipN]
  split
  · rename_i e heq; rw [h] at heq; cases heq
  · rename_i sz2 asz2 heq
    rw [h] at heq
    cases heq
    simp [hl]

theorem skipN_err {b : List Nat} {e : Err} (n : Nat)
    (h : getSize b = Except.error e) :
    skipN b (n + 1) = .error e := by
  rw [skipN]
  split
  · rename_i e2 heq; rw [h] at heq; cases heq; rfl
  · rename_i sz2 asz2 heq; rw [h] at heq; cases heq

theorem skipN_short {b : List Nat} {sz asz : Nat} (n : Nat)
    (h : getSize b = Except.ok (sz, asz)) (hl : b.length < sz) :
    skipN b (n + 1) = .error .shortBytes := by
  rw [skipN]
  split
  · rename_i e2 heq; rw [h] at heq; cases heq
  · rename_i sz2 asz2 heq
    rw [h] at heq
    cases heq
    simp [hl]

/-- Skipping `a + c` objects is skipping `a` objects, then `c` objects from
the remainder. -/
theorem skipN_add (b : List Nat) (a c : Nat) :
    skipN b (a + c) = match skipN b a with
      | .error e => Except.error e
      | .ok b2 => skipN b2 c := by
  induction b, a using skipN.induct generalizing c with
  | case1 b => simp [skipN_zero]
  | case2 b n e h =>
      have hx : n + 1 + c = (n + c) + 1 := by omega
      rw [Nat.succ_eq_add_one, hx, skipN_err (n + c) h, skipN_err n h]
  | case3 b n sz asz h hl =>
      have hx : n + 1 + c = (n + c) + 1 := by omega
      rw [Nat.succ_eq_add_one, hx, skipN_short (n + c) h hl, skipN_short n h hl]
  | case4 b n sz asz h hl ih =>
      have hx : n + 1 + c = (n + c) + 1 := by omega
      rw [Nat.succ_eq_add_one, hx, skipN_step (n + c) h hl, skipN_step n h hl]
      have hy : n + c + asz = (n + asz) + c := by omega
      rw [hy, ih]

/-- The counter formulation of the source's `Skip` recursion coincides with
skipping one object at a time. -/
theorem skipN_eq_skipSeq (m : Nat) (b : List Nat) : skipN b m = skipSeq m b := by
  induction m generalizing b with
  | zero => rw [skipN_zero]; rfl
  | succ m ih =>
      have h1 : m + 1 = 1 + m := Nat.add_comm m 1
      conv_lhs => rw [h1, skipN_add b 1 m]
      have hs : skipN b 1 = Skip b := rfl
      rw [skipSeq, hs]
      cases hS : Skip b with
      | error e => simp only [hS]
      | ok b2 => simp only [hS]; exact ih b2

/-- C3: `Skip` consumes exactly one top-level object: reading the prefix via
`getSize` yields (skip `sz` bytes, skip `m` further objects); `Skip` slices
off the `sz` prefix bytes and then skips the `m` further objects one `Skip`
call at a time.  A fixmap header announcing `N` pairs (and likewise a map16
header) yields `m = 2·N`.  On the four-byte buffer `81 a1 6b 90` (a map of
one pair, key "k", value the empty array) `Skip` succeeds and returns the
empty tail. -/
theorem claim_C3 :
    (∀ lead rest, isfixmap lead →
      getSize (lead :: rest) = Except.ok (1, 2 * rfixmap lead)) ∧
    (∀ hi lo rest,
      getSize (mmap16 :: hi :: lo :: rest) = Except.ok (3, 2 * (hi * 0x100 + lo))) ∧
    (∀ b sz m, getSize b = Except.ok (sz, m) → ¬ b.length < sz →
      Skip b = skipSeq m (b.drop sz)) ∧
    Skip [0x81, 0xa1, 0x6b, 0x90] = Except.ok [] := by
  refine ⟨?_, ?_, ?_, ?_⟩
  · intro lead rest h
    simp only [isfixmap, decide_eq_true_eq] at h
    obtain ⟨h1, h2⟩ := h
    interval_cases lead <;>
      norm_num [getSize, sizes, rfixmap, constsize, mnil, mfalse, mtrue, mbin8, mbin16,
        mbin32, mext8, mext16, mext32, mfloat32, mfloat64, muint8, muint16, muint32,
        muint64, mint8, mint16, mint32, mint64, mfixext1, mfixext2, mfixext4, mfixext8,
        mfixext16, mstr8, mstr16, mstr32, marray16, marray32, mmap16, mmap32] <;>
      decide
  · intro hi lo rest
    norm_num [getSize, sizes, getMuint16, map16v, constsize, extra8, extra16, extra32,
      map32v, array16v, array32v, mnil, mfalse, mtrue, mbin8, mbin16, mbin32, mext8,
      mext16, mext32, mfloat32, mfloat64, muint8, muint16, muint32, muint64, mint8,
      mint16, mint32, mint64, mfixext1, mfixext2, mfixext4, mfixext8, mfixext16, mstr8,
      mstr16, mstr32, marray16, marray32, mmap16, mmap32]
  · intro b sz m h hl
    rw [Skip]
    have h1 := skipN_step 0 h hl
    rw [Nat.zero_add] at h1
    rw [h1, Nat.zero_add, skipN_eq_skipSeq]
  · have e1 : getSize [0x81, 0xa1, 0x6b, 0x90] = Except.ok (1, 2) := by rfl
    have e2 : getSize [0xa1, 0x6b, 0x90] = Except.ok (2, 0) := by rfl
    have e3 : getSize [0x90] = Except.ok (1, 0) := by rfl
    have s1 : skipN [0x81, 0xa1, 0x6b, 0x90] 1 = skipN [0xa1, 0x6b, 0x90] 2 :=
      skipN_step 0 e1 (by simp)
    have s2 : skipN [0xa1, 0x6b, 0x90] 2 = skipN [0x90] 1 :=
      skipN_step 1 e2 (by simp)
    have s3 : skipN [0x90] 1 = skipN [] 0 :=
      skipN_step 0 e3 (by simp)
    rw [Skip, s1, s2, s3, skipN_zero]

/-- Witness for C3 at the concrete buffer `81 a1 6b 90`. -/
theorem claim_C3_witness :
    getSize [0x81, 0xa1, 0x6b, 0x90] = Except.ok (1, 2) ∧
    Skip [0x81, 0xa1, 0x6b, 0x90] = skipSeq 2 [0xa1, 0x6b, 0x90] := by
  constructor
  · rfl
  · exact claim_C3.2.2.1 [0x81, 0xa1, 0x6b, 0x90] 1 2 (by rfl) (by simp)

/-- `Raw` is raw encoded MessagePack, embedded as its byte list. -/
abbrev Raw := List Nat

/-- Modelled from the spec: `AppendNil` appends the nil byte `0xc0`. -/
def AppendNil (b : List Nat) : List Nat := b ++ [mnil]

/-- Modelled from the spec: `ensure(b, sz)` grows `b` by `sz` bytes and
returns the grown slice together with the old length (the write offset). -/
def ensure (b : List Nat) (sz : Nat) : List Nat × Nat :=
  (b ++ List.replicate sz 0, b.length)

/-- Embeds `Raw.MarshalMsg` from `read_bytes.go`: appends the raw contents
of `r` to `b`; if `r` is empty, the nil byte is appended instead.  The
`copy(o[l:], r)` fills the `len(r)` grown bytes with `r`. -/
def Raw.MarshalMsg (r : Raw) (b : List Nat) : List Nat × Option Err :=
  let i := r.length
  if i = 0 then (AppendNil b, none)
  else
    let ol := ensure b i
    (ol.1.take ol.2 ++ r, none)

/-- Embeds `Raw.Msgsize` from `read_bytes.go`. -/
def Raw.Msgsize (r : Raw) : Nat :=
  let l := r.length
  if l = 0 then 1
  else l

/-- C10: for every `Raw` value `r` and destination `b`, `r.MarshalMsg(b)`
succeeds and appends exactly `r.Msgsize()` bytes to `b`: the single nil
byte `0xc0` when `r` is empty (`Msgsize` = 1), otherwise the bytes of `r`
itself (`Msgsize` = `len(r)`); the size estimate is exact. -/
theorem claim_C10 (r : Raw) (b : List Nat) :
    (Raw.MarshalMsg r b).2 = none ∧
    (Raw.MarshalMsg r b).1.length = b.length + Raw.Msgsize r ∧
    (Raw.MarshalMsg r b).1 = b ++ (if r.length = 0 then [mnil] else r) := by
  by_cases hr : r.length = 0
  · simp [Raw.MarshalMsg, Raw.Msgsize, AppendNil, ensure, hr]
  · simp [Raw.MarshalMsg, Raw.Msgsize, AppendNil, ensure, hr, List.take_left]

/-- Embeds the three-valued `sizeState` of the size generator
(`part_000`): `assign` before the first write, `add` at the start of a new
statement, `expr` while a right-hand side is open. -/
inductive sizeState where
  | assign
  | add
  | expr
deriving DecidableEq

/-- The size generator: the printer is embedded as the text emitted so far
(`p.print` appends; printer failure, `p.ok()`, is not modelled, since the
pure printer never fails). -/
structure sizeGen where
  out : String
  state : sizeState
deriving DecidableEq

/-- Embeds `addConstant` from the size generator (`part_000`). -/
def addConstant (s : sizeGen) (sz : String) : sizeGen :=
  match s.state with
  | .assign => ⟨s.out ++ "\ns = " ++ sz, .expr⟩
  | .add => ⟨s.out ++ "\ns += " ++ sz, .expr⟩
  | .expr => ⟨s.out ++ " + " ++ sz, .expr⟩

/-- C7: every size term emitted through `addConstant` follows the
three-state rule and leaves the generator in state `expr`: from `assign`
it emits a newline and `s = <term>`, from `add` a newline and
`s += <term>`, and from `expr` it appends ` + <term>` to the current
right-hand side. -/
theorem claim_C7 (g : sizeGen) (sz : String) :
    (addConstant g sz).state = .expr ∧
    (g.state = .assign → (addConstant g sz).out = g.out ++ "\ns = " ++ sz) ∧
    (g.state = .add → (addConstant g sz).out = g.out ++ "\ns += " ++ sz) ∧
    (g.state = .expr → (addConstant g sz).out = g.out ++ " + " ++ sz) := by
  obtain ⟨out, st⟩ := g
  cases st <;> simp [addConstant]

/-- Witness for C7: `addConstant` applied in each of the three states. -/
theorem claim_C7_witness :
    (addConstant ⟨"", .assign⟩ "5").out = "\ns = 5" ∧
    (addConstant ⟨"", .add⟩ "5").out = "\ns += 5" ∧
    (addConstant ⟨"", .expr⟩ "5").out = " + 5" :=
  ⟨(claim_C7 ⟨"", .assign⟩ "5").2.1 rfl,
   (claim_C7 ⟨"", .add⟩ "5").2.2.1 rfl,
   (claim_C7 ⟨"", .expr⟩ "5").2.2.2 rfl⟩

/-- Errors of the streaming layer seen by `WriteToJSON`: end-of-stream
(`io.EOF`) or any other read/decode error, carried abstractly. -/
inductive GoErr where
  | eof
  | ioError (msg : String)
deriving DecidableEq

/-- The read loop of `WriteToJSON`: the `rwNext` calls are abstracted as
the byte counts of the successful steps (`stepSizes`) followed by one
failing step that wrote `lastN` bytes and returned the non-nil error `e`
(the loop runs while `err == nil`, adding `nn` to `n` each round). -/
def writeToJSONLoop : List Nat → Nat → GoErr → Nat × GoErr
  | [], lastN, e => (lastN, e)
  | nn :: rest, lastN, e =>
      let r := writeToJSONLoop rest lastN e
      (nn + r.1, r.2)

/-- Embeds `WriteToJSON` from the transcoder: pulls and transcodes objects
until the reader errors; a non-`io.EOF` error is returned as is, while
`io.EOF` is replaced by a nil error (the buffered writer's final `Flush`
is pure here and cannot fail). -/
def WriteToJSON (stepSizes : List Nat) (lastN : Nat) (e : GoErr) : Nat × Option GoErr :=
  let r := writeToJSONLoop stepSizes lastN e
  if r.2 ≠ .eof then (r.1, some r.2)
  else (r.1, none)

/-- The loop stops with exactly the error the failing step returned. -/
theorem writeToJSONLoop_err (stepSizes : List Nat) (lastN : Nat) (e : GoErr) :
    (writeToJSONLoop stepSizes lastN e).2 = e := by
  induction stepSizes with
  | nil => rfl
  | cons nn rest ih => simp [writeToJSONLoop, ih]

/-- C8: `WriteToJSON` pulls objects until the underlying reader errors;
when the loop stopped because the reader returned `io.EOF` the result
error is nil, and when it stopped on any other read or decode error that
error is returned to the caller. -/
theorem claim_C8 (stepSizes : List Nat) (lastN : Nat) (e : GoErr) :
    (WriteToJSON stepSizes lastN e).2 =
      (if e = .eof then none else some e) := by
  by_cases he : e = .eof <;>
    simp [WriteToJSON, writeToJSONLoop_err, he]

/-- Embeds the `primitive` enumeration of the generator's base element
kinds (the kinds the size pass distinguishes). -/
inductive primitive where
  | Intf
  | Ext
  | IDENT
  | Bytes
  | String
  | Bool
  | Int8
  | Int16
  | Int32
  | Int64
  | Float64
deriving DecidableEq

mutual
/-- Embeds the generator's element tree restricted to the node forms the
verified trees use: `Struct` (with its field slice and `AsTuple` flag) and
plain non-shim `BaseElem` (value kind, `Varname`, `BaseName`).  `Ptr`,
`Slice`, `Array`, `Map` and shim-converted bases are outside this
fragment. -/
inductive Elem where
  | struct (fields : FieldList) (asTuple : Bool)
  | base (value : primitive) (varname : String) (baseName : String)

/-- The field slice of a `Struct`: per field its tag (UTF-8 bytes) and its
element. -/
inductive FieldList where
  | nil
  | cons (fieldTag : List Nat) (fieldElem : Elem) (rest : FieldList)
end

/-- Length of a field slice. -/
def FieldList.length : FieldList → Nat
  | .nil => 0
  | .cons _ _ rest => 1 + rest.length

/-- Modelled from the spec: `AppendMapHeader` emits the shortest map
header (fixmap below 16 pairs, else map16 below 65536, else map32). -/
def AppendMapHeader (b : List Nat) (n : Nat) : List Nat :=
  if n ≤ 0xf then b ++ [0x80 + n]
  else if n ≤ 0xffff then b ++ [mmap16, n / 0x100 % 0x100, n % 0x100]
  else b ++ [mmap32, n / 0x1000000 % 0x100, n / 0x10000 % 0x100, n / 0x100 % 0x100, n % 0x100]

/-- Modelled from the spec: `AppendArrayHeader` emits the shortest array
header (fixarray below 16 elements, else array16, else array32). -/
def AppendArrayHeader (b : List Nat) (n : Nat) : List Nat :=
  if n ≤ 0xf then b ++ [0x90 + n]
  else if n ≤ 0xffff then b ++ [marray16, n / 0x100 % 0x100, n % 0x100]
  else b ++ [marray32, n / 0x1000000 % 0x100, n / 0x10000 % 0x100, n / 0x100 % 0x100, n % 0x100]

/-- Modelled from the spec: `AppendString` emits the shortest str header
(fixstr up to 31 bytes, then str8/str16/str32) followed by the string's
UTF-8 bytes `s`. -/
def AppendString (b : List Nat) (s : List Nat) : List Nat :=
  let sz := s.length
  if sz ≤ 0x1f then b ++ [0xa0 + sz] ++ s
  else if sz ≤ 0xff then b ++ [mstr8, sz] ++ s
  else if sz ≤ 0xffff then b ++ [mstr16, sz / 0x100 % 0x100, sz % 0x100] ++ s
  else b ++ [mstr32, sz / 0x1000000 % 0x100, sz / 0x10000 % 0x100, sz / 0x100 % 0x100, sz % 0x100] ++ s

/-- Embeds `builtinSize` from the size generator. -/
def builtinSize (typ : String) : String := "msgp." ++ typ ++ "Size"

/-- Embeds `stripRef` from the size generator. -/
def stripRef (s : String) : String :=
  if s.startsWith "&" then s.drop 1 else s

/-- Embeds `baseSizeExpr` from the size generator. -/
def baseSizeExpr (value : primitive) (vname basename : String) : String :=
  match value with
  | .Ext => "msgp.ExtensionPrefixSize + " ++ stripRef vname ++ ".Len()"
  | .Intf => "msgp.GuessSize(" ++ vname ++ ")"
  | .IDENT => vname ++ ".Msgsize()"
  | .Bytes => "msgp.BytesPrefixSize + len(" ++ vname ++ ")"
  | .String => "msgp.StringPrefixSize + len(" ++ vname ++ ")"
  | _ => builtinSize basename

/-- Embeds `gBase` for plain base elements (the non-shim branch: one
constant term for the primitive's size expression). -/
def gBase (s : sizeGen) (value : primitive) (vname basename : String) : sizeGen :=
  addConstant s (baseSizeExpr value vname basename)

mutual
/-- Embeds the generator dispatch `next` for the modelled element forms. -/
def next (s : sizeGen) (e : Elem) : sizeGen :=
  match e with
  | .base value vname basename => gBase s value vname basename
  | .struct fields asTuple => gStruct s fields asTuple

/-- Embeds `gStruct` from the size generator: a tuple struct emits the
byte count of its array header and then its fields; a non-tuple struct
emits the byte count of its map header and, per field, the byte count of
the string-encoded field tag followed by the field's element. -/
def gStruct (s : sizeGen) (fields : FieldList) (asTuple : Bool) : sizeGen :=
  if asTuple then
    let data := AppendArrayHeader [] fields.length
    gStructTupleFields (addConstant s (Nat.repr data.length)) fields
  else
    let data := AppendMapHeader [] fields.length
    gStructMapFields (addConstant s (Nat.repr data.length)) fields

/-- The tuple-struct field loop of `gStruct`. -/
def gStructTupleFields (s : sizeGen) (fields : FieldList) : sizeGen :=
  match fields with
  | .nil => s
  | .cons _ fieldElem rest => gStructTupleFields (next s fieldElem) rest

/-- The non-tuple field loop of `gStruct`: per field, the length of the
string-encoded field tag as a constant, then the field element. -/
def gStructMapFields (s : sizeGen) (fields : FieldList) : sizeGen :=
  match fields with
  | .nil => s
  | .cons fieldTag fieldElem rest =>
      let data := AppendString [] fieldTag
      gStructMapFields (next (addConstant s (Nat.repr data.length)) fieldElem) rest
end

/-- Modelled from the spec: the codec constant `msgp.Int32Size`, the
maximum int32 wire size (one prefix byte plus four payload bytes). -/
def Int32Size : Nat := 5

/-- C6: the size generator over the non-tuple struct with the single field
tag "x" (byte `0x78`) of base kind Int32, started in state `assign` as
`Execute` does, emits exactly the one assignment `s = 1 + 2 +
msgp.Int32Size` (no loops, no branches): a single constant-chained
right-hand side whose terms 1 (fixmap header), 2 (fixstr-encoded tag "x")
and `msgp.Int32Size` = 5 sum to 8. -/
theorem claim_C6 :
    next ⟨"", .assign⟩
        (.struct (.cons [0x78] (.base .Int32 "z.x" "Int32") .nil) false) =
      ⟨"\ns = 1 + 2 + msgp.Int32Size", .expr⟩ ∧
    1 + 2 + Int32Size = 8 := by
  constructor
  · simp [next, gStruct, gStructMapFields, gBase, addConstant, AppendMapHeader,
      AppendString, baseSizeExpr, builtinSize, FieldList.length]
    rfl
  · rfl

/-- Modelled from the Go standard library: the standard base64 alphabet
(`A-Z`, `a-z`, `0-9`, `+`, `/`), as ASCII byte values. -/
def b64char (n : Nat) : Nat :=
  if n < 26 then 65 + n
  else if n < 52 then 97 + (n - 26)
  else if n < 62 then 48 + (n - 52)
  else if n = 62 then 43
  else 47

/-- Modelled from the Go standard library: `base64.StdEncoding` with
padding (`=` is byte 61), as produced by an encoder fed the whole payload
and then closed: three input bytes per four output characters, a two-byte
remainder padded with one `=`, a one-byte remainder with two. -/
def base64Std : List Nat → List Nat
  | [] => []
  | [a] => [b64char (a / 4 % 64), b64char (a % 4 * 16), 61, 61]
  | [a, b] =>
      [b64char (a / 4 % 64), b64char ((a % 4 * 16 + b / 16) % 64),
        b64char (b % 16 * 4), 61]
  | a :: b :: c :: rest =>
      b64char (a / 4 % 64) :: b64char ((a % 4 * 16 + b / 16) % 64) ::
        b64char ((b % 16 * 4 + c / 64) % 64) :: b64char (c % 64) ::
          base64Std rest

/-- Modelled from the Go standard library: `strconv.AppendInt(b, i, 10)`
appends the signed base-10 ASCII representation of `i`. -/
def appendInt10 (b : List Nat) (i : Int) : List Nat :=
  b ++ (Int.repr i).toList.map Char.toNat

/-- Embeds the unregistered-tag branch of `rwExtension` from the
transcoder: the sequence of writes performed on the JSON writer, in source
order, for a raw extension with type tag `et` and payload `data` (the
registered case defers to the extension's own JSON marshaling and is
outside this fragment; writes on the pure writer cannot fail).  The
literals are, as byte values: `0x7b`, then `"type:"` including both
quotes, the decimal tag, `,"data":"`, the base64 payload, and `"` `0x7d`. -/
def rwExtension (et : Int) (data : List Nat) : List Nat :=
  let out : List Nat := []
  let out := out ++ [123]
  let out := out ++ [34, 116, 121, 112, 101, 58, 34]
  let out := appendInt10 out et
  let out := out ++ [44, 34, 100, 97, 116, 97, 34, 58, 34]
  let out := out ++ base64Std data
  out ++ [34, 125]

/-- C9: for an extension whose tag has no registered factory the
transcoder emits exactly an object consisting of `0x7b`, the fixed literal
key `"type:"` with the trailing colon inside the quotes, the tag `N` in
base 10, the fixed literal `,"data":"`, the standard padded base64 of the
payload, and the closing `"` `0x7d`.  Concretely, tag 5 with payload bytes
1 2 3 4 produces the thirteen-plus-eight characters
`0x7b "type:"5,"data":"AQIDBA==" 0x7d`. -/
theorem claim_C9 :
    (∀ et data, rwExtension et data =
      [123, 34, 116, 121, 112, 101, 58, 34] ++
        ((Int.repr et).toList.map Char.toNat) ++
        [44, 34, 100, 97, 116, 97, 34, 58, 34] ++
        base64Std data ++ [34, 125]) ∧
    rwExtension 5 [1, 2, 3, 4] =
      [123, 34, 116, 121, 112, 101, 58, 34, 53,
        44, 34, 100, 97, 116, 97, 34, 58, 34,
        65, 81, 73, 68, 66, 65, 61, 61, 34, 125] := by
  constructor
  · intro et data
    simp [rwExtension, appendInt10]
  · rfl

/-- Modelled from the Go standard library: `utf8.DecodeRune` on a byte
list, returning (rune, size).  Invalid openings, out-of-range continuation
bytes, surrogates and overlong encodings give (RuneError = `0xfffd`, 1);
empty input gives (RuneError, 0); a truncated but well-opened sequence
gives (RuneError, 1). -/
def utf8DecodeRune (s : List Nat) : Nat × Nat :=
  match s with
  | [] => (0xfffd, 0)
  | b0 :: rest =>
    if b0 < 0x80 then (b0, 1)
    else if b0 < 0xc2 then (0xfffd, 1)
    else if b0 ≤ 0xdf then
      match rest with
      | b1 :: _ =>
          if 0x80 ≤ b1 ∧ b1 ≤ 0xbf then ((b0 - 0xc0) * 0x40 + (b1 - 0x80), 2)
          else (0xfffd, 1)
      | [] => (0xfffd, 1)
    else if b0 ≤ 0xef then
      match rest with
      | b1 :: b2 :: _ =>
          if (if b0 = 0xe0 then 0xa0 ≤ b1 ∧ b1 ≤ 0xbf
              else if b0 = 0xed then 0x80 ≤ b1 ∧ b1 ≤ 0x9f
              else 0x80 ≤ b1 ∧ b1 ≤ 0xbf) then
            if 0x80 ≤ b2 ∧ b2 ≤ 0xbf then
              ((b0 - 0xe0) * 0x1000 + (b1 - 0x80) * 0x40 + (b2 - 0x80), 3)
            else (0xfffd, 1)
          else (0xfffd, 1)
      | _ => (0xfffd, 1)
    else if b0 ≤ 0xf4 then
      match rest with
      | b1 :: b2 :: b3 :: _ =>
          if (if b0 = 0xf0 then 0x90 ≤ b1 ∧ b1 ≤ 0xbf
              else if b0 = 0xf4 then 0x80 ≤ b1 ∧ b1 ≤ 0x8f
              else 0x80 ≤ b1 ∧ b1 ≤ 0xbf) then
            if 0x80 ≤ b2 ∧ b2 ≤ 0xbf then
              if 0x80 ≤ b3 ∧ b3 ≤ 0xbf then
                ((b0 - 0xf0) * 0x40000 + (b1 - 0x80) * 0x1000 +
                  (b2 - 0x80) * 0x40 + (b3 - 0x80), 4)
              else (0xfffd, 1)
            else (0xfffd, 1)
          else (0xfffd, 1)
      | _ => (0xfffd, 1)
    else (0xfffd, 1)

/-- On nonempty input the decoder always consumes at least one byte. -/
theorem utf8DecodeRune_size_pos {s : List Nat} (h : s ≠ []) :
    1 ≤ (utf8DecodeRune s).2 := by
  match s with
  | b0 :: rest =>
      simp only [utf8DecodeRune]
      repeat' split
      all_goals simp

/-- The `hex` digit table of the transcoder (`"0123456789abcdef"`),
indexed below 16. -/
def hexDigit (n : Nat) : Nat :=
  if n < 10 then 0x30 + n else 0x61 + (n - 10)

/-- Embeds the scanning loop of `rwQuoted` from the transcoder on the pure
byte-list writer (writes cannot fail, so the early error returns drop
out).  `i` is the scan position, `start` the start of the pending
unescaped run, `out` the bytes written so far; the exit path flushes the
pending run and writes the closing quote. -/
def rwQuotedLoop (s : List Nat) (i start : Nat) (out : List Nat) : List Nat :=
  if hi : i < s.length then
    let b := s.getD i 0
    if b < 0x80 then
      if 0x20 ≤ b ∧ b ≠ 0x5c ∧ b ≠ 0x22 ∧ b ≠ 0x3c ∧ b ≠ 0x3e ∧ b ≠ 0x26 then
        rwQuotedLoop s (i + 1) start out
      else
        let out1 := if start < i then out ++ (s.drop start).take (i - start) else out
        let out2 :=
          if b = 0x5c ∨ b = 0x22 then out1 ++ [0x5c, b]
          else if b = 0x0a then out1 ++ [0x5c, 0x6e]
          else if b = 0x0d then out1 ++ [0x5c, 0x72]
          else out1 ++ [0x5c, 0x75, 0x30, 0x30, hexDigit (b / 16), hexDigit (b % 16)]
        rwQuotedLoop s (i + 1) (i + 1) out2
    else
      let cz := utf8DecodeRune (s.drop i)
      if cz.1 = 0xfffd ∧ cz.2 = 1 ∧ start < i then
        rwQuotedLoop s (i + cz.2) (i + cz.2)
          (out ++ (s.drop start).take (i - start) ++ [0x5c, 0x75, 0x66, 0x66, 0x66, 0x64])
      else
        let out1 :=
          if (cz.1 = 0x2028 ∨ cz.1 = 0x2029) ∧ start < i then
            out ++ (s.drop start).take (i - start) ++
              [0x5c, 0x75, 0x32, 0x30, 0x32, hexDigit (cz.1 % 16)]
          else out
        rwQuotedLoop s (i + cz.2) start out1
  else
    (if start < s.length then out ++ s.drop start else out) ++ [0x22]
termination_by s.length - i
decreasing_by
  · omega
  · omega
  · have hpos : 1 ≤ (utf8DecodeRune (s.drop i)).2 :=
      utf8DecodeRune_size_pos (by simp; omega)
    omega
  · have hpos : 1 ≤ (utf8DecodeRune (s.drop i)).2 :=
      utf8DecodeRune_size_pos (by simp; omega)
    omega

/-- Embeds `rwQuoted` from the transcoder: opening quote, the scan loop,
final flush of the pending run, closing quote. -/
def rwQuoted (s : List Nat) : List Nat :=
  rwQuotedLoop s 0 0 [0x22]

/-- C4: the claim says `rwQuoted` emits U+2028 (UTF-8 `e2 80 a8`) as the
six-character escape backslash-u-2028 and that the raw bytes of the separator never appear in
the output.  In the source the escape is written only when `start < i`
(so a separator at the start of a pending run is not escaped at all), and
`start` is never advanced past the separator, so the raw bytes are always
re-emitted by the final flush: on the input consisting only of U+2028 the
output is the raw bytes inside quotes with no escape; on `a` + U+2028 the
output contains the escape but then repeats `a` and the raw separator
bytes. -/
theorem claim_C4 :
    rwQuoted [0xe2, 0x80, 0xa8] = [0x22, 0xe2, 0x80, 0xa8, 0x22] ∧
    rwQuoted [0x61, 0xe2, 0x80, 0xa8] =
      [0x22, 0x61, 0x5c, 0x75, 0x32, 0x30, 0x32, 0x38,
        0x61, 0xe2, 0x80, 0xa8, 0x22] := by
  constructor <;>
    simp [rwQuoted, rwQuotedLoop, utf8DecodeRune, hexDigit]

end Msgp
